import Mathlib

/-
Verification of the callout-inserter plugin (src/main.ts) against its
specification.  The TypeScript source is shallowly embedded: category names
and document text are Lean Strings / lists of Chars, the asynchronous preview
renderer is modelled by an explicit pending-render queue with a settle step,
and the host editor and DOM capabilities are modelled at the granularity of
their documented contracts.
-/

/- ---------------------------------------------------------------------- -/
/- JavaScript Set-based deduplication.                                     -/
/- Array.from(new Set(l)) keeps the first occurrence of each element, in   -/
/- insertion order.  jsSetDedupGo carries the set of already-seen elements. -/
/- ---------------------------------------------------------------------- -/

def jsSetDedupGo {α : Type} [DecidableEq α] : List α → List α → List α
  | [], _ => []
  | x :: xs, seen =>
    if x ∈ seen then jsSetDedupGo xs seen else x :: jsSetDedupGo xs (x :: seen)

/-- Model of Array.from(new Set(l)): first occurrences, in insertion order. -/
def jsSetDedup {α : Type} [DecidableEq α] (l : List α) : List α :=
  jsSetDedupGo l []

theorem mem_jsSetDedupGo {α : Type} [DecidableEq α] (l : List α) (a : α) :
    ∀ seen : List α, a ∈ jsSetDedupGo l seen ↔ a ∈ l ∧ a ∉ seen := by
  induction l with
  | nil => intro seen; simp [jsSetDedupGo]
  | cons x xs ih =>
    intro seen
    by_cases hx : x ∈ seen
    · rw [jsSetDedupGo, if_pos hx, ih]
      constructor
      · rintro ⟨h1, h2⟩; exact ⟨List.mem_cons_of_mem _ h1, h2⟩
      · rintro ⟨h1, h2⟩
        rcases List.mem_cons.mp h1 with h1 | h1
        · exact absurd (h1 ▸ hx) h2
        · exact ⟨h1, h2⟩
    · rw [jsSetDedupGo, if_neg hx]
      constructor
      · intro h
        rcases List.mem_cons.mp h with h | h
        · exact ⟨h ▸ List.mem_cons_self _ _, h ▸ hx⟩
        · rcases (ih (x :: seen)).mp h with ⟨h1, h2⟩
          exact ⟨List.mem_cons_of_mem _ h1,
                 fun hs => h2 (List.mem_cons_of_mem _ hs)⟩
      · rintro ⟨h1, h2⟩
        by_cases ha : a = x
        · exact ha ▸ List.mem_cons_self _ _
        · rcases List.mem_cons.mp h1 with h1 | h1
          · exact absurd h1 ha
          · refine List.mem_cons_of_mem _ ((ih (x :: seen)).mpr ⟨h1, ?_⟩)
            intro hs
            rcases List.mem_cons.mp hs with hs | hs
            · exact ha hs
            · exact h2 hs

theorem nodup_jsSetDedupGo {α : Type} [DecidableEq α] (l : List α) :
    ∀ seen : List α, (jsSetDedupGo l seen).Nodup := by
  induction l with
  | nil => intro seen; simp [jsSetDedupGo]
  | cons x xs ih =>
    intro seen
    by_cases hx : x ∈ seen
    · rw [jsSetDedupGo, if_pos hx]; exact ih seen
    · rw [jsSetDedupGo, if_neg hx]
      refine List.nodup_cons.mpr ⟨?_, ih (x :: seen)⟩
      intro hmem
      exact ((mem_jsSetDedupGo xs x (x :: seen)).mp hmem).2 (List.mem_cons_self _ _)

theorem mem_jsSetDedup {α : Type} [DecidableEq α] (l : List α) (a : α) :
    a ∈ jsSetDedup l ↔ a ∈ l := by
  rw [jsSetDedup, mem_jsSetDedupGo]
  simp

theorem nodup_jsSetDedup {α : Type} [DecidableEq α] (l : List α) :
    (jsSetDedup l).Nodup :=
  nodup_jsSetDedupGo l []

/- ---------------------------------------------------------------------- -/
/- The default JavaScript Array.sort comparator on strings: lexicographic  -/
/- comparison by code unit (equivalently, by code point on the characters  -/
/- involved here).                                                         -/
/- ---------------------------------------------------------------------- -/

def jsStrLeList : List Char → List Char → Bool
  | [], _ => true
  | _ :: _, [] => false
  | a :: as, b :: bs =>
    if a.toNat < b.toNat then true
    else if b.toNat < a.toNat then false
    else jsStrLeList as bs

/-- a sorts no later than b under the default JS string comparison. -/
def jsStrLe (a b : String) : Bool := jsStrLeList a.data b.data

theorem jsStrLeList_total (a : List Char) :
    ∀ b : List Char, jsStrLeList a b = true ∨ jsStrLeList b a = true := by
  induction a with
  | nil => intro b; left; rfl
  | cons x as ih =>
    intro b
    cases b with
    | nil => right; rfl
    | cons y bs =>
      by_cases hxy : x.toNat < y.toNat
      · left; rw [jsStrLeList, if_pos hxy]
      · by_cases hyx : y.toNat < x.toNat
        · right; rw [jsStrLeList, if_pos hyx]
        · rcases ih bs with h | h
          · left; rw [jsStrLeList, if_neg hxy, if_neg hyx]; exact h
          · right; rw [jsStrLeList, if_neg hyx, if_neg hxy]; exact h

theorem jsStrLeList_trans (a : List Char) :
    ∀ b c : List Char, jsStrLeList a b = true → jsStrLeList b c = true →
      jsStrLeList a c = true := by
  induction a with
  | nil => intro b c _ _; rfl
  | cons x as ih =>
    intro b c hab hbc
    cases b with
    | nil => rw [jsStrLeList] at hab; exact absurd hab (by simp)
    | cons y bs =>
      cases c with
      | nil => rw [jsStrLeList] at hbc; exact absurd hbc (by simp)
      | cons z cs =>
        rw [jsStrLeList] at hab hbc ⊢
        by_cases hxy : x.toNat < y.toNat
        · by_cases hyz : y.toNat < z.toNat
          · rw [if_pos (by omega : x.toNat < z.toNat)]
          · by_cases hzy : z.toNat < y.toNat
            · rw [if_neg hyz, if_pos hzy] at hbc; exact absurd hbc (by simp)
            · rw [if_pos (by omega : x.toNat < z.toNat)]
        · by_cases hyx : y.toNat < x.toNat
          · rw [if_neg hxy, if_pos hyx] at hab; exact absurd hab (by simp)
          · by_cases hyz : y.toNat < z.toNat
            · rw [if_pos (by omega : x.toNat < z.toNat)]
            · by_cases hzy : z.toNat < y.toNat
              · rw [if_neg hyz, if_pos hzy] at hbc; exact absurd hbc (by simp)
              · rw [if_neg hxy, if_neg hyx] at hab
                rw [if_neg hyz, if_neg hzy] at hbc
                rw [if_neg (by omega : ¬ x.toNat < z.toNat),
                    if_neg (by omega : ¬ z.toNat < x.toNat)]
                exact ih bs cs hab hbc

theorem jsStrLe_total (a b : String) : jsStrLe a b = true ∨ jsStrLe b a = true :=
  jsStrLeList_total a.data b.data

theorem jsStrLe_trans (a b c : String) :
    jsStrLe a b = true → jsStrLe b c = true → jsStrLe a c = true :=
  jsStrLeList_trans a.data b.data c.data

/- ---------------------------------------------------------------------- -/
/- CategorySource: the stylesheet scan (parseCalloutTypesFromCSS) and the  -/
/- merge (getAvailableCalloutTypes), from src/main.ts lines 71-99.         -/
/- ---------------------------------------------------------------------- -/

/-- The single-quote character, written by code point. -/
def singleQuote : Char := Char.ofNat 39

/-- The character class of the regex, matching either quote character. -/
def isQuoteChar (c : Char) : Bool := c == '"' || c == singleQuote

/-- Consume an exact pattern from the front of a character list. -/
def stripPref : List Char → List Char → Option (List Char)
  | [], l => some l
  | _ :: _, [] => none
  | p :: ps, c :: cs => if c = p then stripPref ps cs else none

theorem stripPref_length :
    ∀ (p l r : List Char), stripPref p l = some r → r.length + p.length = l.length := by
  intro p
  induction p with
  | nil =>
    intro l r h
    simp [stripPref] at h
    simp [h]
  | cons x ps ih =>
    intro l r h
    cases l with
    | nil => simp [stripPref] at h
    | cons c cs =>
      rw [stripPref] at h
      by_cases hc : c = x
      · rw [if_pos hc] at h
        have := ih cs r h
        simp only [List.length_cons]
        omega
      · rw [if_neg hc] at h
        exact absurd h (by simp)

/-- The literal part of the regex pattern, before the opening quote. -/
def calloutAttr : List Char := "[data-callout=".toList

/-- One attempted regex match at the head of the input, embedding the
pattern with a data-callout attribute selector: the literal head, an opening
quote (double or single), a nonempty greedy run of non-quote characters (the
captured group), a closing quote (double or single, independently of the
opening one, exactly as the character class allows), and a closing bracket.
Returns the captured name and the input remaining after the whole match. -/
def matchCalloutAt (l : List Char) : Option (List Char × List Char) :=
  match stripPref calloutAttr l with
  | none => none
  | some [] => none
  | some (q1 :: r2) =>
    if isQuoteChar q1 then
      if (r2.takeWhile (fun c => !(isQuoteChar c))).isEmpty then none
      else
        match r2.drop (r2.takeWhile (fun c => !(isQuoteChar c))).length with
        | q2 :: c3 :: rest =>
          if isQuoteChar q2 && decide (c3 = ']') then
            some (r2.takeWhile (fun c => !(isQuoteChar c)), rest)
          else none
        | _ => none
    else none

theorem matchCalloutAt_length {l : List Char} {pr : List Char × List Char}
    (h : matchCalloutAt l = some pr) : pr.2.length < l.length := by
  unfold matchCalloutAt at h
  split at h
  · exact absurd h (by simp)
  · exact absurd h (by simp)
  · rename_i r1 q1 r2 heq
    have hlen : (q1 :: r2).length + calloutAttr.length = l.length :=
      stripPref_length _ _ _ heq
    have hattr : 0 < calloutAttr.length := by decide
    split at h
    · split at h
      · exact absurd h (by simp)
      · split at h
        · rename_i q2 c3 rest hdrop
          split at h
          · have hpr : pr.2 = rest := by cases h; rfl
            have hdlen : (r2.drop (r2.takeWhile (fun c => !(isQuoteChar c))).length).length
                = rest.length + 2 := by rw [hdrop]; simp
            rw [List.length_drop] at hdlen
            simp only [List.length_cons] at hlen
            rw [hpr]
            omega
          · exact absurd h (by simp)
        · exact absurd h (by simp)
    · exact absurd h (by simp)

/-- Fuel-indexed scan for all (non-overlapping, left-to-right) matches of the
callout regex, mirroring content.matchAll: at each position try the pattern;
on a match, capture the group and continue after the match; otherwise advance
one character.  Fuel only bounds the recursion; inputLength + 1 fuel always
suffices since every step consumes at least one character. -/
def scanCalloutsFuel : Nat → List Char → List (List Char)
  | 0, _ => []
  | _ + 1, [] => []
  | fuel + 1, c :: cs =>
    match matchCalloutAt (c :: cs) with
    | some pr => pr.1 :: scanCalloutsFuel fuel pr.2
    | none => scanCalloutsFuel fuel cs

/-- All captured callout names in the content, in match order. -/
def scanCallouts (l : List Char) : List (List Char) :=
  scanCalloutsFuel (l.length + 1) l

theorem scanCalloutsFuel_sufficient :
    ∀ (f g : Nat) (l : List Char), l.length < f → l.length < g →
      scanCalloutsFuel f l = scanCalloutsFuel g l := by
  intro f
  induction f with
  | zero => intro g l hf _; omega
  | succ f ih =>
    intro g l hf hg
    cases g with
    | zero => omega
    | succ g =>
      cases l with
      | nil => rfl
      | cons c cs =>
        simp only [List.length_cons] at hf hg
        cases hm : matchCalloutAt (c :: cs) with
        | some pr =>
          have hlt := matchCalloutAt_length hm
          simp only [List.length_cons] at hlt
          simp only [scanCalloutsFuel, hm]
          rw [ih g pr.2 (by omega) (by omega)]
        | none =>
          simp only [scanCalloutsFuel, hm]
          exact ih g cs (by omega) (by omega)

/-- Model of CalloutInserterPlugin.parseCalloutTypesFromCSS: the style-rule
source read either fails (the catch branch: the error is logged and the
scanned set becomes empty) or succeeds, in which case the regex matches are
collected into a Set and listed in insertion order.  Returns the new value of
the cssCalloutTypes field. -/
def parseCalloutTypesFromCSS (readResult : Except String String) : List String :=
  match readResult with
  | Except.error _ => []
  | Except.ok content =>
      jsSetDedup ((scanCallouts content.toList).map (fun cs => String.mk cs))

/-- Model of CalloutInserterPlugin.getAvailableCalloutTypes: concatenate the
scanned CSS types with the configured defaults, deduplicate via a Set, and
sort ascending with the default JS comparator (code-unit lexicographic). -/
def getAvailableCalloutTypes (cssCalloutTypes defaultCalloutTypes : List String) :
    List String :=
  List.insertionSort (fun a b => jsStrLe a b = true)
    (jsSetDedup (cssCalloutTypes ++ defaultCalloutTypes))

/-- C5: the merge of scanned and configured category names is deduplicated,
sorted ascending by the locale-independent code-unit string order, contains
exactly the union of its two inputs, and on scanned equal to the singleton
custom with configured note, custom, tip it yields exactly custom, note, tip. -/
theorem getAvailableCalloutTypes_merge_spec :
    (∀ css cfg : List String,
        (getAvailableCalloutTypes css cfg).Sorted (fun a b => jsStrLe a b = true) ∧
        (getAvailableCalloutTypes css cfg).Nodup ∧
        (∀ t : String, t ∈ getAvailableCalloutTypes css cfg ↔ t ∈ css ∨ t ∈ cfg)) ∧
    getAvailableCalloutTypes ["custom"] ["note", "custom", "tip"]
      = ["custom", "note", "tip"] := by
  constructor
  · intro css cfg
    refine ⟨?_, ?_, ?_⟩
    · exact @List.sorted_insertionSort String (fun a b => jsStrLe a b = true) _
        ⟨jsStrLe_total⟩ ⟨jsStrLe_trans⟩ _
    · exact (List.perm_insertionSort _ _).nodup_iff.mpr (nodup_jsSetDedup _)
    · intro t
      rw [getAvailableCalloutTypes, (List.perm_insertionSort _ _).mem_iff,
          mem_jsSetDedup, List.mem_append]
  · decide

/-- C7: if the style-rule source cannot be read, the scan yields the empty
set of categories and does not raise (the Except error branch is handled
inside the function); on a readable source the scan really extracts the
attribute-selector names, deduplicated. -/
theorem parseCalloutTypesFromCSS_graceful :
    (∀ err : String, parseCalloutTypesFromCSS (Except.error err) = []) ∧
    parseCalloutTypesFromCSS
        (Except.ok ".callout[data-callout=\"custom\"] x [data-callout=\"custom\"] y")
      = ["custom"] := by
  constructor
  · intro err; rfl
  · decide

/- ---------------------------------------------------------------------- -/
/- The document editor (host capability of section 6 of the spec): a       -/
/- line-structured document, a cursor position, and a focus flag.          -/
/- replaceRange with a single position argument inserts text at that       -/
/- position, splicing on the newlines of the inserted text.                -/
/- ---------------------------------------------------------------------- -/

structure EditorPos where
  line : Nat
  ch : Nat
deriving DecidableEq

structure EditorState where
  doc : List (List Char)
  cursor : EditorPos
  focused : Bool
deriving DecidableEq

/-- Split a character sequence at its newlines into the list of its lines. -/
def splitNl : List Char → List (List Char)
  | [] => [[]]
  | c :: cs =>
    if c = '\n' then [] :: splitNl cs
    else
      match splitNl cs with
      | [] => [[c]]
      | l :: ls => (c :: l) :: ls

theorem splitNl_nlfree (a : List Char) (h : ∀ c ∈ a, c ≠ '\n') :
    splitNl a = [a] := by
  induction a with
  | nil => rfl
  | cons c cs ih =>
    have hc : c ≠ '\n' := h c (List.mem_cons_self _ _)
    have hcs : splitNl cs = [cs] := ih (fun x hx => h x (List.mem_cons_of_mem _ hx))
    rw [splitNl, if_neg hc, hcs]

theorem splitNl_append_nl (a b : List Char) (h : ∀ c ∈ a, c ≠ '\n') :
    splitNl (a ++ '\n' :: b) = a :: splitNl b := by
  induction a with
  | nil => simp [splitNl]
  | cons c cs ih =>
    have hc : c ≠ '\n' := h c (List.mem_cons_self _ _)
    have hcs := ih (fun x hx => h x (List.mem_cons_of_mem _ hx))
    rw [List.cons_append, splitNl, if_neg hc, hcs]

/-- Model of Editor.replaceRange(text, pos) with a single position: insert
the text at the cursor position, splicing the current line around it and
splitting the result on the newlines of the inserted text. -/
def replaceRange (doc : List (List Char)) (p : EditorPos) (text : List Char) :
    List (List Char) :=
  doc.take p.line
    ++ splitNl ((doc.getD p.line []).take p.ch ++ text ++ (doc.getD p.line []).drop p.ch)
    ++ doc.drop (p.line + 1)

/-- The inserted snippet of insertCallout, from src/main.ts line 186. -/
def calloutText (t : String) : List Char :=
  "> [!".toList ++ t.toList ++ "]\n> ".toList

/-- Model of CalloutSuggestModal.insertCallout: read the cursor, insert the
snippet there, set the cursor one line down at column 2, focus the editor. -/
def insertCallout (ed : EditorState) (t : String) : EditorState :=
  { doc := replaceRange ed.doc ed.cursor (calloutText t),
    cursor := { line := ed.cursor.line + 1, ch := 2 },
    focused := true }

theorem splitNl_calloutText (before after : List Char) (t : String)
    (hb : ∀ c ∈ before, c ≠ '\n') (ha : ∀ c ∈ after, c ≠ '\n')
    (ht : ∀ c ∈ t.toList, c ≠ '\n') :
    splitNl (before ++ calloutText t ++ after)
      = [before ++ ("> [!".toList ++ t.toList ++ "]".toList),
         "> ".toList ++ after] := by
  have hsplit : before ++ calloutText t ++ after
      = (before ++ ("> [!".toList ++ t.toList ++ "]".toList))
        ++ '\n' :: ("> ".toList ++ after) := by
    have e1 : ("]\n> ".toList : List Char) = ']' :: '\n' :: '>' :: ' ' :: [] := rfl
    have e2 : ("]".toList : List Char) = [']'] := rfl
    have e3 : ("> ".toList : List Char) = '>' :: ' ' :: [] := rfl
    rw [calloutText, e1, e2, e3]
    simp
  have h4 : ∀ c ∈ ("> ".toList : List Char), c ≠ '\n' := by decide
  have h5 : ∀ c ∈ ("> [!".toList : List Char), c ≠ '\n' := by decide
  have h6 : ∀ c ∈ ("]".toList : List Char), c ≠ '\n' := by decide
  rw [hsplit, splitNl_append_nl, splitNl_nlfree]
  · intro c hc
    rcases List.mem_append.mp hc with hc | hc
    · exact h4 c hc
    · exact ha c hc
  · intro c hc
    rcases List.mem_append.mp hc with hc | hc
    · exact hb c hc
    · rcases List.mem_append.mp hc with hc | hc
      · rcases List.mem_append.mp hc with hc | hc
        · exact h5 c hc
        · exact ht c hc
      · exact h6 c hc

theorem replaceRange_callout (doc : List (List Char)) (p : EditorPos) (t : String)
    (hline : ∀ c ∈ doc.getD p.line [], c ≠ '\n') (ht : ∀ c ∈ t.toList, c ≠ '\n') :
    replaceRange doc p (calloutText t)
      = doc.take p.line
        ++ [(doc.getD p.line []).take p.ch ++ ("> [!".toList ++ t.toList ++ "]".toList),
            "> ".toList ++ (doc.getD p.line []).drop p.ch]
        ++ doc.drop (p.line + 1) := by
  rw [replaceRange, splitNl_calloutText]
  · intro c hc; exact hline c (List.take_subset _ _ hc)
  · intro c hc; exact hline c (List.drop_subset _ _ hc)
  · exact ht

/-- C4: for every category and cursor position, insertCallout inserts exactly
the marker line and the quote-continuation line of the callout snippet at the
cursor (the current line is split at the cursor column, its prefix ends the
marker insertion, its suffix follows the continuation marker), then sets the
cursor to the next line at column 2, then sets editor focus. -/
theorem insertCallout_snippet_spec (ed : EditorState) (t : String)
    (hline : ∀ c ∈ ed.doc.getD ed.cursor.line [], c ≠ '\n')
    (ht : ∀ c ∈ t.toList, c ≠ '\n') :
    (insertCallout ed t).doc
      = ed.doc.take ed.cursor.line
        ++ [(ed.doc.getD ed.cursor.line []).take ed.cursor.ch
              ++ ("> [!".toList ++ t.toList ++ "]".toList),
            "> ".toList ++ (ed.doc.getD ed.cursor.line []).drop ed.cursor.ch]
        ++ ed.doc.drop (ed.cursor.line + 1)
    ∧ (insertCallout ed t).cursor = { line := ed.cursor.line + 1, ch := 2 }
    ∧ (insertCallout ed t).focused = true := by
  refine ⟨?_, rfl, rfl⟩
  exact replaceRange_callout ed.doc ed.cursor t hline ht

/-- Concrete editor state used by the insertion witnesses: a four-line
document with the cursor on line 3 at column 5 and focus elsewhere. -/
def sampleEditor : EditorState :=
  { doc := ["alpha".toList, "beta".toList, "gamma".toList, "hello world".toList],
    cursor := { line := 3, ch := 5 },
    focused := false }

theorem insertCallout_snippet_spec_witness :
    ((∀ c ∈ sampleEditor.doc.getD sampleEditor.cursor.line [], c ≠ '\n') ∧
     (∀ c ∈ "warning".toList, c ≠ '\n')) ∧
    ((insertCallout sampleEditor "warning").doc
        = sampleEditor.doc.take sampleEditor.cursor.line
          ++ [(sampleEditor.doc.getD sampleEditor.cursor.line []).take sampleEditor.cursor.ch
                ++ ("> [!".toList ++ "warning".toList ++ "]".toList),
              "> ".toList
                ++ (sampleEditor.doc.getD sampleEditor.cursor.line []).drop sampleEditor.cursor.ch]
          ++ sampleEditor.doc.drop (sampleEditor.cursor.line + 1)
      ∧ (insertCallout sampleEditor "warning").cursor
          = { line := sampleEditor.cursor.line + 1, ch := 2 }
      ∧ (insertCallout sampleEditor "warning").focused = true) :=
  ⟨⟨by decide, by decide⟩,
   insertCallout_snippet_spec sampleEditor "warning" (by decide) (by decide)⟩

/- ---------------------------------------------------------------------- -/
/- SelectionPreviewController: CalloutSuggestModal.updatePreview from      -/
/- src/main.ts lines 219-235.  The asynchronous render is modelled by an   -/
/- explicit queue of in-flight renders: updatePreview synchronously        -/
/- records the new current type, empties the surface and enqueues a render -/
/- of the sample markdown; a render settling successfully appends its      -/
/- output to the surface (MarkdownRenderer.render mounts its output into   -/
/- previewEl before its promise resolves, and the code awaits nothing      -/
/- after it), while a rejected render mounts nothing.  Call sites invoke   -/
/- updatePreview without awaiting it, so a rejection propagates to no      -/
/- handler (it surfaces only as an unhandled-rejection log).               -/
/- ---------------------------------------------------------------------- -/

/-- Model of type.charAt(0).toUpperCase() + type.slice(1). -/
def capitalizeFirst (s : String) : String :=
  match s.data with
  | [] => ""
  | c :: cs => String.mk (c.toUpper :: cs)

/-- The sample markdown rendered into the preview surface for a category,
from src/main.ts line 226. -/
def calloutMarkdown (t : String) : String :=
  "> [!" ++ t ++ "] " ++ capitalizeFirst t
    ++ "\n> This is a preview of the " ++ t ++ " callout."

structure PreviewState where
  currentPreviewType : Option String
  previewEl : List String
  pending : List (Nat × String)
  nextId : Nat
deriving DecidableEq

/-- The preview state of a freshly constructed modal: no current type, an
empty surface, no render in flight. -/
def initPreviewState : PreviewState :=
  { currentPreviewType := none, previewEl := [], pending := [], nextId := 0 }

/-- Model of CalloutSuggestModal.updatePreview: a call for the current type
returns immediately; otherwise the current type is recorded synchronously,
the surface is emptied, and a render of the sample markdown is started. -/
def updatePreview (s : PreviewState) (t : String) : PreviewState :=
  if s.currentPreviewType = some t then s
  else
    { currentPreviewType := some t,
      previewEl := [],
      pending := s.pending ++ [(s.nextId, calloutMarkdown t)],
      nextId := s.nextId + 1 }

/-- Settlement of the in-flight render with the given id: it leaves the
queue and, if it succeeded, its output is appended to the preview surface.
The code performs no still-current check here, mirroring the absence of any
guard between the await and the mount in updatePreview. -/
def settleRender (s : PreviewState) (id : Nat) (ok : Bool) : PreviewState :=
  match s.pending.find? (fun pr => decide (pr.1 = id)) with
  | none => s
  | some pr =>
    { s with
      pending := s.pending.filter (fun q => decide (q.1 ≠ id)),
      previewEl := if ok then s.previewEl ++ [pr.2] else s.previewEl }

theorem updatePreview_of_current (s : PreviewState) (t : String)
    (h : s.currentPreviewType = some t) : updatePreview s t = s := by
  rw [updatePreview, if_pos h]

theorem updatePreview_of_ne (s : PreviewState) (t : String)
    (h : s.currentPreviewType ≠ some t) :
    updatePreview s t
      = { currentPreviewType := some t, previewEl := [],
          pending := s.pending ++ [(s.nextId, calloutMarkdown t)],
          nextId := s.nextId + 1 } := by
  rw [updatePreview, if_neg h]

theorem current_updatePreview (s : PreviewState) (t : String) :
    (updatePreview s t).currentPreviewType = some t := by
  by_cases h : s.currentPreviewType = some t
  · rw [updatePreview_of_current s t h]; exact h
  · rw [updatePreview_of_ne s t h]

/-- C2: redundant updatePreview calls coalesce.  After a call for c the
current type is c, so an immediately repeated call for c is a no-op (the
controller state is unchanged: no re-render, no unmount or remount), and for
a run of three equal calls starting from a state not already previewing c,
exactly one render is initiated (one id consumed, one render enqueued). -/
theorem updatePreview_coalescing (s : PreviewState) (c : String) :
    (updatePreview s c).currentPreviewType = some c ∧
    updatePreview (updatePreview s c) c = updatePreview s c ∧
    (s.currentPreviewType ≠ some c →
      (updatePreview (updatePreview (updatePreview s c) c) c).nextId = s.nextId + 1 ∧
      (updatePreview (updatePreview (updatePreview s c) c) c).pending
        = s.pending ++ [(s.nextId, calloutMarkdown c)]) := by
  have h1 : (updatePreview s c).currentPreviewType = some c := current_updatePreview s c
  have h2 : updatePreview (updatePreview s c) c = updatePreview s c :=
    updatePreview_of_current _ _ h1
  refine ⟨h1, h2, fun h => ?_⟩
  rw [h2, h2, updatePreview_of_ne s c h]
  exact ⟨rfl, rfl⟩

theorem updatePreview_coalescing_witness :
    initPreviewState.currentPreviewType ≠ some "note" ∧
    ((updatePreview (updatePreview (updatePreview initPreviewState "note") "note")
        "note").nextId = initPreviewState.nextId + 1 ∧
     (updatePreview (updatePreview (updatePreview initPreviewState "note") "note")
        "note").pending
       = initPreviewState.pending ++ [(initPreviewState.nextId, calloutMarkdown "note")]) :=
  ⟨by decide, (updatePreview_coalescing initPreviewState "note").2.2 (by decide)⟩

/-- C9: updatePreview enforces no membership precondition.  For every string
argument whatsoever, with no requirement that it belong to the category set
backing the session (the empty string included), a call whose argument
differs from the current previewed type never errors: it records the
argument as the current previewed type, empties the surface, and starts a
render of the sample markdown for it. -/
theorem updatePreview_no_membership_precondition (s : PreviewState) (t : String)
    (h : s.currentPreviewType ≠ some t) :
    updatePreview s t
      = { currentPreviewType := some t, previewEl := [],
          pending := s.pending ++ [(s.nextId, calloutMarkdown t)],
          nextId := s.nextId + 1 } :=
  updatePreview_of_ne s t h

theorem updatePreview_no_membership_precondition_witness :
    initPreviewState.currentPreviewType ≠ some "" ∧
    updatePreview initPreviewState ""
      = { currentPreviewType := some "", previewEl := [],
          pending := initPreviewState.pending
            ++ [(initPreviewState.nextId, calloutMarkdown "")],
          nextId := initPreviewState.nextId + 1 } :=
  ⟨by decide, updatePreview_no_membership_precondition initPreviewState "" (by decide)⟩

theorem settleRender_single (cur : Option String) (el : List String)
    (n m : Nat) (a : String) (ok : Bool) :
    settleRender ⟨cur, el, [(n, a)], m⟩ n ok
      = ⟨cur, if ok then el ++ [a] else el, [], m⟩ := by
  simp [settleRender, List.find?, List.filter]

theorem settleRender_pair_first (cur : Option String) (el : List String)
    (n m : Nat) (a b : String) :
    settleRender ⟨cur, el, [(n, a), (n + 1, b)], m⟩ n true
      = ⟨cur, el ++ [a], [(n + 1, b)], m⟩ := by
  simp [settleRender, List.find?, List.filter]

theorem settleRender_pair_second (cur : Option String) (el : List String)
    (n m : Nat) (a b : String) :
    settleRender ⟨cur, el, [(n, a), (n + 1, b)], m⟩ (n + 1) true
      = ⟨cur, el ++ [b], [(n, a)], m⟩ := by
  simp [settleRender, List.find?, List.filter]

/-- C1 (counterexample): the last-writer-wins claim fails on the code.  From
the fresh state, updatePreview for note (render id 0, left in flight) is
followed by updatePreview for tip (render id 1) before the first settles;
tip's render then settles first and note's stale render settles last.  Once
all in-flight renders have settled (the pending queue is empty), the preview
surface does not correspond to tip alone: the stale note render was mounted
after it, because the code performs no still-current check before mounting. -/
theorem updatePreview_race_cex :
    (settleRender (settleRender (updatePreview (updatePreview initPreviewState "note")
        "tip") 1 true) 0 true).pending = [] ∧
    (settleRender (settleRender (updatePreview (updatePreview initPreviewState "note")
        "tip") 1 true) 0 true).previewEl
      = [calloutMarkdown "tip", calloutMarkdown "note"] ∧
    calloutMarkdown "note"
      ∈ (settleRender (settleRender (updatePreview (updatePreview initPreviewState "note")
          "tip") 1 true) 0 true).previewEl ∧
    (settleRender (settleRender (updatePreview (updatePreview initPreviewState "note")
        "tip") 1 true) 0 true).previewEl ≠ [calloutMarkdown "tip"] := by
  refine ⟨by decide, by decide, by decide, by decide⟩

/-- C1 (amended): what the code guarantees under the race.  If updatePreview
for A is in flight and updatePreview for B (B distinct from A) is called
before it settles, then the current-type marker is B (last writer wins on
the marker, synchronously) and the surface was emptied at the call for B;
but the stale in-flight render for A is not discarded: both renders mount on
settling, in settlement order, so once all renders settle the surface holds
both contents and shows A's content after B's whenever A settles last. -/
theorem updatePreview_race_amended (s : PreviewState) (A B : String)
    (hp : s.pending = []) (hA : s.currentPreviewType ≠ some A) (hAB : A ≠ B) :
    (updatePreview (updatePreview s A) B).currentPreviewType = some B ∧
    (updatePreview (updatePreview s A) B).previewEl = [] ∧
    (updatePreview (updatePreview s A) B).pending
      = [(s.nextId, calloutMarkdown A), (s.nextId + 1, calloutMarkdown B)] ∧
    (settleRender (settleRender (updatePreview (updatePreview s A) B)
        s.nextId true) (s.nextId + 1) true).previewEl
      = [calloutMarkdown A, calloutMarkdown B] ∧
    (settleRender (settleRender (updatePreview (updatePreview s A) B)
        (s.nextId + 1) true) s.nextId true).previewEl
      = [calloutMarkdown B, calloutMarkdown A] ∧
    (settleRender (settleRender (updatePreview (updatePreview s A) B)
        s.nextId true) (s.nextId + 1) true).pending = [] ∧
    (settleRender (settleRender (updatePreview (updatePreview s A) B)
        (s.nextId + 1) true) s.nextId true).pending = [] := by
  have e1 : updatePreview s A
      = ⟨some A, [], [(s.nextId, calloutMarkdown A)], s.nextId + 1⟩ := by
    rw [updatePreview_of_ne s A hA, hp]
    simp
  have hAB2 : (some A : Option String) ≠ some B := by
    intro h; exact hAB (Option.some.inj h)
  have e2 : updatePreview (updatePreview s A) B
      = ⟨some B, [], [(s.nextId, calloutMarkdown A), (s.nextId + 1, calloutMarkdown B)],
         s.nextId + 2⟩ := by
    rw [e1, updatePreview_of_ne _ B hAB2]
    simp
  have e3 := settleRender_pair_first (some B) [] s.nextId (s.nextId + 2)
    (calloutMarkdown A) (calloutMarkdown B)
  have e5 := settleRender_pair_second (some B) [] s.nextId (s.nextId + 2)
    (calloutMarkdown A) (calloutMarkdown B)
  simp only [List.nil_append] at e3 e5
  have e4 := settleRender_single (some B) [calloutMarkdown A] (s.nextId + 1)
    (s.nextId + 2) (calloutMarkdown B) true
  have e6 := settleRender_single (some B) [calloutMarkdown B] s.nextId
    (s.nextId + 2) (calloutMarkdown A) true
  rw [e2, e3, e5, e4, e6]
  exact ⟨rfl, rfl, rfl, rfl, rfl, rfl, rfl⟩

theorem updatePreview_race_amended_witness :
    (initPreviewState.pending = [] ∧
     initPreviewState.currentPreviewType ≠ some "note" ∧
     "note" ≠ "tip") ∧
    ((updatePreview (updatePreview initPreviewState "note") "tip").currentPreviewType
        = some "tip" ∧
     (updatePreview (updatePreview initPreviewState "note") "tip").previewEl = [] ∧
     (updatePreview (updatePreview initPreviewState "note") "tip").pending
       = [(initPreviewState.nextId, calloutMarkdown "note"),
          (initPreviewState.nextId + 1, calloutMarkdown "tip")] ∧
     (settleRender (settleRender (updatePreview (updatePreview initPreviewState "note")
          "tip") initPreviewState.nextId true) (initPreviewState.nextId + 1) true).previewEl
       = [calloutMarkdown "note", calloutMarkdown "tip"] ∧
     (settleRender (settleRender (updatePreview (updatePreview initPreviewState "note")
          "tip") (initPreviewState.nextId + 1) true) initPreviewState.nextId true).previewEl
       = [calloutMarkdown "tip", calloutMarkdown "note"] ∧
     (settleRender (settleRender (updatePreview (updatePreview initPreviewState "note")
          "tip") initPreviewState.nextId true) (initPreviewState.nextId + 1) true).pending
       = [] ∧
     (settleRender (settleRender (updatePreview (updatePreview initPreviewState "note")
          "tip") (initPreviewState.nextId + 1) true) initPreviewState.nextId true).pending
       = []) :=
  ⟨⟨by decide, by decide, by decide⟩,
   updatePreview_race_amended initPreviewState "note" "tip"
     (by decide) (by decide) (by decide)⟩

/-- C3: a failed render is not fatal to the session.  If the render started
by updatePreview for c rejects, the surface is left empty (the last
successful content would remain if one had been mounted after the last
emptying), the current marker still reads c, the session state is intact: a
later call for the same category returns without error as the coalescing
no-op, and a call for a different category d proceeds normally, records d
and renders d, whose settlement mounts d's preview.  No exception reaches
any caller: call sites invoke updatePreview without awaiting it, so the
rejection of its promise propagates into no handler. -/
theorem updatePreview_render_failure_recovery (s : PreviewState) (c d : String)
    (hp : s.pending = []) (hc : s.currentPreviewType ≠ some c) (hd : d ≠ c) :
    (settleRender (updatePreview s c) s.nextId false).previewEl = [] ∧
    (settleRender (updatePreview s c) s.nextId false).pending = [] ∧
    (settleRender (updatePreview s c) s.nextId false).currentPreviewType = some c ∧
    updatePreview (settleRender (updatePreview s c) s.nextId false) c
      = settleRender (updatePreview s c) s.nextId false ∧
    (updatePreview (settleRender (updatePreview s c) s.nextId false) d).currentPreviewType
      = some d ∧
    (settleRender (updatePreview (settleRender (updatePreview s c) s.nextId false) d)
        (s.nextId + 1) true).previewEl
      = [calloutMarkdown d] := by
  have e1 : updatePreview s c
      = ⟨some c, [], [(s.nextId, calloutMarkdown c)], s.nextId + 1⟩ := by
    rw [updatePreview_of_ne s c hc, hp]
    simp
  have e2 : settleRender (updatePreview s c) s.nextId false
      = ⟨some c, [], [], s.nextId + 1⟩ := by
    rw [e1, settleRender_single]
    simp
  have hcd : (some c : Option String) ≠ some d := by
    intro h; exact hd (Option.some.inj h).symm
  have e3 : updatePreview (settleRender (updatePreview s c) s.nextId false) d
      = ⟨some d, [], [(s.nextId + 1, calloutMarkdown d)], s.nextId + 2⟩ := by
    rw [e2, updatePreview_of_ne _ d hcd]
    simp
  have e4 : settleRender
        (updatePreview (settleRender (updatePreview s c) s.nextId false) d)
        (s.nextId + 1) true
      = ⟨some d, [calloutMarkdown d], [], s.nextId + 2⟩ := by
    rw [e3, settleRender_single]
    simp
  refine ⟨by rw [e2], by rw [e2], by rw [e2], ?_, by rw [e3], by rw [e4]⟩
  rw [e2]
  exact updatePreview_of_current _ _ rfl

theorem updatePreview_render_failure_recovery_witness :
    (initPreviewState.pending = [] ∧
     initPreviewState.currentPreviewType ≠ some "note" ∧
     "tip" ≠ "note") ∧
    ((settleRender (updatePreview initPreviewState "note") initPreviewState.nextId
        false).previewEl = [] ∧
     (settleRender (updatePreview initPreviewState "note") initPreviewState.nextId
        false).pending = [] ∧
     (settleRender (updatePreview initPreviewState "note") initPreviewState.nextId
        false).currentPreviewType = some "note" ∧
     updatePreview (settleRender (updatePreview initPreviewState "note")
        initPreviewState.nextId false) "note"
       = settleRender (updatePreview initPreviewState "note") initPreviewState.nextId
          false ∧
     (updatePreview (settleRender (updatePreview initPreviewState "note")
        initPreviewState.nextId false) "tip").currentPreviewType = some "tip" ∧
     (settleRender (updatePreview (settleRender (updatePreview initPreviewState "note")
        initPreviewState.nextId false) "tip") (initPreviewState.nextId + 1) true).previewEl
       = [calloutMarkdown "tip"]) :=
  ⟨⟨by decide, by decide, by decide⟩,
   updatePreview_render_failure_recovery initPreviewState "note" "tip"
     (by decide) (by decide) (by decide)⟩

/- ---------------------------------------------------------------------- -/
/- InsertionPicker wiring: renderSuggestion (src/main.ts lines 198-217)    -/
/- materializes a row: it renders the item text into the row element,      -/
/- stores the item in the row's dataset, registers the hover handler, and, -/
/- when the host has already marked the row selected, triggers the preview -/
/- for the row's item synchronously.                                       -/
/- ---------------------------------------------------------------------- -/

structure RowEl where
  children : List String
  datasetCalloutType : Option String
  hoverTargets : List String
  isSelected : Bool
deriving DecidableEq

/-- Model of CalloutSuggestModal.renderSuggestion on one row element. -/
def renderSuggestion (s : PreviewState) (item : String) (el : RowEl) :
    PreviewState × RowEl :=
  let el2 : RowEl :=
    { children := el.children ++ [item],
      datasetCalloutType := some item,
      hoverTargets := el.hoverTargets ++ [item],
      isSelected := el.isSelected }
  if el.isSelected then (updatePreview s item, el2) else (s, el2)

/-- C6: initial-selection preview.  When a row is materialized and is
already marked selected at that moment, renderSuggestion triggers
updatePreview for the row's category synchronously (the resulting controller
state is exactly that of an updatePreview call); the current type is the
row's category at once, and when the render it started settles, the preview
surface shows that category's sample, with no hover or keyboard event. -/
theorem renderSuggestion_initial_selection (s : PreviewState) (item : String)
    (el : RowEl) (hsel : el.isSelected = true)
    (hcur : s.currentPreviewType ≠ some item) (hp : s.pending = []) :
    (renderSuggestion s item el).1 = updatePreview s item ∧
    (renderSuggestion s item el).1.currentPreviewType = some item ∧
    (settleRender (renderSuggestion s item el).1 s.nextId true).previewEl
      = [calloutMarkdown item] := by
  have h1 : (renderSuggestion s item el).1 = updatePreview s item := by
    simp [renderSuggestion, hsel]
  have e1 : updatePreview s item
      = ⟨some item, [], [(s.nextId, calloutMarkdown item)], s.nextId + 1⟩ := by
    rw [updatePreview_of_ne s item hcur, hp]
    simp
  refine ⟨h1, ?_, ?_⟩
  · rw [h1]
    exact current_updatePreview s item
  · rw [h1, e1, settleRender_single]
    simp

theorem renderSuggestion_initial_selection_witness :
    ((RowEl.mk [] none [] true).isSelected = true ∧
     initPreviewState.currentPreviewType ≠ some "note" ∧
     initPreviewState.pending = []) ∧
    ((renderSuggestion initPreviewState "note" (RowEl.mk [] none [] true)).1
        = updatePreview initPreviewState "note" ∧
     (renderSuggestion initPreviewState "note"
        (RowEl.mk [] none [] true)).1.currentPreviewType = some "note" ∧
     (settleRender (renderSuggestion initPreviewState "note"
        (RowEl.mk [] none [] true)).1 initPreviewState.nextId true).previewEl
       = [calloutMarkdown "note"]) :=
  ⟨⟨by decide, by decide, by decide⟩,
   renderSuggestion_initial_selection initPreviewState "note"
     (RowEl.mk [] none [] true) (by decide) (by decide) (by decide)⟩

/- ---------------------------------------------------------------------- -/
/- Session disposal: CalloutSuggestModal.onClose (src/main.ts 237-244).    -/
/- The session holds the Component (whose unload releases every rendering  -/
/- resource attached to it during this session; the freedTotal counter     -/
/- audits how many resources have actually been released) and the          -/
/- MutationObserver, absent until onOpen assigns it (the code guards the   -/
/- disconnect on the field being set; disconnect itself is idempotent per  -/
/- its DOM contract).                                                      -/
/- ---------------------------------------------------------------------- -/

structure SessionState where
  preview : PreviewState
  componentChildren : Nat
  freedTotal : Nat
  observer : Option Bool
deriving DecidableEq

/-- Model of CalloutSuggestModal.onClose: unload the Component (release all
attached rendering resources), and disconnect the observer if one exists. -/
def onClose (s : SessionState) : SessionState :=
  { preview := s.preview,
    componentChildren := 0,
    freedTotal := s.freedTotal + s.componentChildren,
    observer := s.observer.map (fun _ => false) }

/-- C8: disposal is idempotent and safe.  Closing twice equals closing once
(the second close never throws, being a total transition, and frees nothing
further: the total of released resources after two closes is exactly the
resources held before the first, so the rendering surface is never
double-freed); a close releases all held rendering resources and stops the
structural observation; and a close on a session that was never opened (no
observer was ever created) leaves no observer, the guard skipping the
disconnect.  The preview state is untouched, so a close with no preview ever
shown is equally safe. -/
theorem onClose_disposal_safe (s : SessionState) :
    onClose (onClose s) = onClose s ∧
    (onClose (onClose s)).freedTotal = s.freedTotal + s.componentChildren ∧
    (onClose s).componentChildren = 0 ∧
    (onClose s).observer = s.observer.map (fun _ => false) ∧
    (onClose s).preview = s.preview ∧
    (onClose { s with observer := none }).observer = none := by
  refine ⟨?_, ?_, rfl, rfl, rfl, rfl⟩
  · cases ho : s.observer <;> simp [onClose, ho]
  · simp [onClose]

/- ---------------------------------------------------------------------- -/
/- The combined application state around insertCallout: the editor, the    -/
/- modal's category list, the plugin's settings and scanned types, and the -/
/- preview controller state.  The method body touches only the editor.     -/
/- ---------------------------------------------------------------------- -/

structure AppState where
  editor : EditorState
  calloutTypes : List String
  defaultCalloutTypes : List String
  cssCalloutTypes : List String
  preview : PreviewState
deriving DecidableEq

/-- insertCallout acting on the combined state: the body reads and writes
this.editor only. -/
def insertCalloutApp (s : AppState) (t : String) : AppState :=
  { s with editor := insertCallout s.editor t }

theorem getElem?_splice (X mid Y : List (List Char)) (L : Nat)
    (hX : X.length = L) (hmid : mid.length = 2) :
    (∀ i, i < L → (X ++ mid ++ Y)[i]? = X[i]?) ∧
    (∀ j, (X ++ mid ++ Y)[L + 2 + j]? = Y[j]?) ∧
    (X ++ mid ++ Y)[L]? = mid[0]? ∧
    (X ++ mid ++ Y)[L + 1]? = mid[1]? := by
  have hXM : (X ++ mid).length = L + 2 := by
    rw [List.length_append, hX, hmid]
  refine ⟨?_, ?_, ?_, ?_⟩
  · intro i hi
    rw [List.getElem?_append_left (by omega : i < (X ++ mid).length),
        List.getElem?_append_left (by omega : i < X.length)]
  · intro j
    rw [List.getElem?_append_right (by omega : (X ++ mid).length ≤ L + 2 + j)]
    have : L + 2 + j - (X ++ mid).length = j := by omega
    rw [this]
  · rw [List.getElem?_append_left (by omega : L < (X ++ mid).length),
        List.getElem?_append_right (by omega : X.length ≤ L)]
    have : L - X.length = 0 := by omega
    rw [this]
  · rw [List.getElem?_append_left (by omega : L + 1 < (X ++ mid).length),
        List.getElem?_append_right (by omega : X.length ≤ L + 1)]
    have : L + 1 - X.length = 1 := by omega
    rw [this]

/-- C10: frame effect of insertion.  insertCallout changes the document only
at the insertion point: every line before the cursor line is unchanged,
every line after it reappears unchanged one position further down, the
document grows by exactly one line, and the cursor line's own characters all
survive, its prefix up to the cursor column ending in the inserted marker
line and its suffix following the inserted continuation marker.  The
category list, the settings, the scanned CSS types and the preview state are
all untouched. -/
theorem insertCallout_frame (s : AppState) (t : String)
    (hL : s.editor.cursor.line < s.editor.doc.length)
    (hline : ∀ c ∈ s.editor.doc.getD s.editor.cursor.line [], c ≠ '\n')
    (ht : ∀ c ∈ t.toList, c ≠ '\n') :
    (∀ i, i < s.editor.cursor.line →
      (insertCalloutApp s t).editor.doc[i]? = s.editor.doc[i]?) ∧
    (∀ j, (insertCalloutApp s t).editor.doc[s.editor.cursor.line + 2 + j]?
      = s.editor.doc[s.editor.cursor.line + 1 + j]?) ∧
    (insertCalloutApp s t).editor.doc.length = s.editor.doc.length + 1 ∧
    (insertCalloutApp s t).editor.doc[s.editor.cursor.line]?
      = some ((s.editor.doc.getD s.editor.cursor.line []).take s.editor.cursor.ch
          ++ ("> [!".toList ++ t.toList ++ "]".toList)) ∧
    (insertCalloutApp s t).editor.doc[s.editor.cursor.line + 1]?
      = some ("> ".toList
          ++ (s.editor.doc.getD s.editor.cursor.line []).drop s.editor.cursor.ch) ∧
    (insertCalloutApp s t).calloutTypes = s.calloutTypes ∧
    (insertCalloutApp s t).defaultCalloutTypes = s.defaultCalloutTypes ∧
    (insertCalloutApp s t).cssCalloutTypes = s.cssCalloutTypes ∧
    (insertCalloutApp s t).preview = s.preview := by
  have hdoc : (insertCalloutApp s t).editor.doc
      = s.editor.doc.take s.editor.cursor.line
        ++ [(s.editor.doc.getD s.editor.cursor.line []).take s.editor.cursor.ch
              ++ ("> [!".toList ++ t.toList ++ "]".toList),
            "> ".toList
              ++ (s.editor.doc.getD s.editor.cursor.line []).drop s.editor.cursor.ch]
        ++ s.editor.doc.drop (s.editor.cursor.line + 1) :=
    replaceRange_callout s.editor.doc s.editor.cursor t hline ht
  have hX : (s.editor.doc.take s.editor.cursor.line).length = s.editor.cursor.line := by
    rw [List.length_take]
    omega
  have hsp := getElem?_splice (s.editor.doc.take s.editor.cursor.line)
    [(s.editor.doc.getD s.editor.cursor.line []).take s.editor.cursor.ch
        ++ ("> [!".toList ++ t.toList ++ "]".toList),
     "> ".toList
        ++ (s.editor.doc.getD s.editor.cursor.line []).drop s.editor.cursor.ch]
    (s.editor.doc.drop (s.editor.cursor.line + 1))
    s.editor.cursor.line hX rfl
  refine ⟨?_, ?_, ?_, ?_, ?_, rfl, rfl, rfl, rfl⟩
  · intro i hi
    rw [hdoc, hsp.1 i hi, List.getElem?_take_of_lt hi]
  · intro j
    rw [hdoc, hsp.2.1 j, List.getElem?_drop]
  · rw [hdoc]
    simp only [List.length_append, List.length_take, List.length_drop,
      List.length_cons, List.length_nil]
    omega
  · rw [hdoc, hsp.2.2.1]
    rfl
  · rw [hdoc, hsp.2.2.2]
    rfl

/-- Concrete combined state used by the frame witness. -/
def sampleApp : AppState :=
  { editor := sampleEditor,
    calloutTypes := ["note", "tip"],
    defaultCalloutTypes := ["note", "tip"],
    cssCalloutTypes := ["custom"],
    preview := initPreviewState }

theorem insertCallout_frame_witness :
    (sampleApp.editor.cursor.line < sampleApp.editor.doc.length ∧
     (∀ c ∈ sampleApp.editor.doc.getD sampleApp.editor.cursor.line [], c ≠ '\n') ∧
     (∀ c ∈ "warning".toList, c ≠ '\n')) ∧
    ((∀ i, i < sampleApp.editor.cursor.line →
        (insertCalloutApp sampleApp "warning").editor.doc[i]?
          = sampleApp.editor.doc[i]?) ∧
     (∀ j, (insertCalloutApp sampleApp "warning").editor.doc[sampleApp.editor.cursor.line + 2 + j]?
        = sampleApp.editor.doc[sampleApp.editor.cursor.line + 1 + j]?) ∧
     (insertCalloutApp sampleApp "warning").editor.doc.length
        = sampleApp.editor.doc.length + 1 ∧
     (insertCalloutApp sampleApp "warning").editor.doc[sampleApp.editor.cursor.line]?
        = some ((sampleApp.editor.doc.getD sampleApp.editor.cursor.line []).take
              sampleApp.editor.cursor.ch
            ++ ("> [!".toList ++ "warning".toList ++ "]".toList)) ∧
     (insertCalloutApp sampleApp "warning").editor.doc[sampleApp.editor.cursor.line + 1]?
        = some ("> ".toList
            ++ (sampleApp.editor.doc.getD sampleApp.editor.cursor.line []).drop
                sampleApp.editor.cursor.ch) ∧
     (insertCalloutApp sampleApp "warning").calloutTypes = sampleApp.calloutTypes ∧
     (insertCalloutApp sampleApp "warning").defaultCalloutTypes
        = sampleApp.defaultCalloutTypes ∧
     (insertCalloutApp sampleApp "warning").cssCalloutTypes = sampleApp.cssCalloutTypes ∧
     (insertCalloutApp sampleApp "warning").preview = sampleApp.preview) :=
  ⟨⟨by decide, by decide, by decide⟩,
   insertCallout_frame sampleApp "warning" (by decide) (by decide) (by decide)⟩
